import Mathlib

/-!
Verification of the N64 emulator core (`core.py`) against its natural-language
specification.

The Python source is shallowly embedded: mutable object state becomes explicit
record passing, Python exceptions become an `Option PyErr` component threaded
alongside the partially mutated state (a raised exception leaves all mutations
performed before the raise in place, exactly as in CPython), and machine
integers are `Nat` with the masks the source applies (`&&& 0xFFFFFFFF`,
`&&& 0xFFFF`, `% 256`, ...).

Modelling conventions, stated once:
* `print` calls, Tk canvas/label operations, `time.sleep` and thread plumbing
  are elided: they do not touch the machine state modelled here.
* Python list indexing `l[i]` is modelled by `l[i]?` (a `none` is an
  `IndexError`); index assignment `l[i] = v` by `listSet` below; slicing
  `l[:i]`/`l[i:]` by `take`/`drop` (slices never raise).
* The cached handlers of `emulation_loop` are Python closures over the loop
  frame's variables `rs, rt, rd, imm, target`.  Python closures capture by
  reference, so the cache stores only an opcode tag (`HTag`) and the operand
  variables live in a shared `Frame` record that every decode rebinds — a
  faithful rendering of the source's late-binding behaviour.
* `random.random() < 0.1` draws for cheat codes and the netplay `recv` are
  modelled by an explicit `Oracle` parameter; a cheat-code string is modelled
  by its parse result `Option Nat` (`none` = `int(code, 16)` raises).
* `self.rdram_size` is written exactly once (`0x400000` in `__init__`) and
  never reassigned, so it is the constant `rdram_size` here.
-/

/-- Python exception kinds that the modelled code can raise. -/
inductive PyErr
  | valueError
  | indexError
  | structError
  deriving DecidableEq, Repr

/-- Python index assignment `l[i] = v`: in-range update or `IndexError`. -/
def listSet (l : List Nat) (i v : Nat) : Option (List Nat) :=
  if i < l.length then some (l.set i v) else none

/-- Big-endian 32-bit word assembled from four bytes, as `struct.unpack('>I', ...)`
does on the 4-byte slice starting at `pc`.  Only used under a bounds check. -/
def word32At (b : List Nat) (pc : Nat) : Nat :=
  (b.getD pc 0) <<< 24 ||| (b.getD (pc + 1) 0) <<< 16 |||
    (b.getD (pc + 2) 0) <<< 8 ||| b.getD (pc + 3) 0

/-- `struct.unpack('>I', rom[pc:pc+4])`: fails (struct.error) when the slice
is shorter than 4 bytes, i.e. when `pc + 4 > len(rom)`. -/
def fetchWord (b : List Nat) (pc : Nat) : Option Nat :=
  if pc + 4 > b.length then none else some (word32At b pc)

/-- `self.rdram_size`: assigned `0x400000` in `__init__` and never changed. -/
def rdram_size : Nat := 0x400000

/-- State of `RealityCoprocessor` (canvas handles elided). -/
structure Rcp where
  framebuffer : List (List Nat)
  rsp_active : Bool
  rdp_active : Bool
  cycle_count : Nat
  vu_registers : List Nat
  rsp_pc : Nat
  rsp_status : Nat
  rsp_memory : List Nat
  use_test_pattern : Bool
  deriving DecidableEq, Repr

/-- `fb[j][i] = v` for the 2-dimensional framebuffer: row lookup then
in-row assignment, either of which can raise `IndexError`. -/
def setCell (fb : List (List Nat)) (j i v : Nat) : Option (List (List Nat)) :=
  match fb[j]? with
  | none => none
  | some row => if i < row.length then some (fb.set j (row.set i v)) else none

/-- Inner loop of the `rsp_execute` pixel fill: `for j in range(240):
framebuffer[j][i] = c`, iterating over the given list of `j` values. -/
def colLoop (c i : Nat) : List Nat → List (List Nat) → List (List Nat) × Option PyErr
  | [], fb => (fb, none)
  | j :: js, fb =>
    match setCell fb j i c with
    | some fb1 => colLoop c i js fb1
    | none => (fb, some .indexError)

/-- Outer loop of the `rsp_execute` pixel fill: `for i in range(320)`. -/
def rowLoop (c : Nat) : List Nat → List (List Nat) → List (List Nat) × Option PyErr
  | [], fb => (fb, none)
  | i :: il, fb =>
    match colLoop c i (List.range 240) fb with
    | (fb1, none) => rowLoop c il fb1
    | (fb1, some e) => (fb1, some e)

/-- The whole pixel fill of `rsp_execute` (lines 58-61 of the source). -/
def fillFB (fb : List (List Nat)) (c : Nat) : List (List Nat) × Option PyErr :=
  rowLoop c (List.range 320) fb

/-- The uniform colour `((vu[0] % 256) << 16) | ((vu[1] % 256) << 8) | (vu[2] % 256)`.
The three register reads are loop-invariant, so they are hoisted out of the
fill loop; a missing register raises `IndexError` before any pixel is written,
exactly as at the first loop iteration in the source. -/
def readColor (vu : List Nat) : Option Nat :=
  match vu[0]?, vu[1]?, vu[2]? with
  | some a, some b, some c => some (((a % 256) <<< 16) ||| ((b % 256) <<< 8) ||| (c % 256))
  | _, _, _ => none

/-- The RSP sub-opcode dispatch of `rsp_execute` (VADD 0x32, VMUL 0x33,
VMOV 0x34, anything else is ignored).  Register reads happen before the
single register write; `cycle_count` is bumped only after a successful write. -/
def vuDispatch (op opcode : Nat) (r : Rcp) : Rcp × Option PyErr :=
  if op = 0x32 then
    let rs := (opcode >>> 21) &&& 0x1F
    let rt := (opcode >>> 16) &&& 0x1F
    let rd := (opcode >>> 11) &&& 0x1F
    match r.vu_registers[rs]?, r.vu_registers[rt]? with
    | some a, some b =>
      match listSet r.vu_registers rd ((a + b) &&& 0xFFFF) with
      | some vu => ({ r with vu_registers := vu, cycle_count := r.cycle_count + 8 }, none)
      | none => (r, some .indexError)
    | _, _ => (r, some .indexError)
  else if op = 0x33 then
    let rs := (opcode >>> 21) &&& 0x1F
    let rt := (opcode >>> 16) &&& 0x1F
    let rd := (opcode >>> 11) &&& 0x1F
    match r.vu_registers[rs]?, r.vu_registers[rt]? with
    | some a, some b =>
      match listSet r.vu_registers rd ((a * b) &&& 0xFFFF) with
      | some vu => ({ r with vu_registers := vu, cycle_count := r.cycle_count + 10 }, none)
      | none => (r, some .indexError)
    | _, _ => (r, some .indexError)
  else if op = 0x34 then
    let rs := (opcode >>> 21) &&& 0x1F
    let rd := (opcode >>> 11) &&& 0x1F
    match r.vu_registers[rs]? with
    | some a =>
      match listSet r.vu_registers rd a with
      | some vu => ({ r with vu_registers := vu, cycle_count := r.cycle_count + 6 }, none)
      | none => (r, some .indexError)
    | none => (r, some .indexError)
  else (r, none)

/-- The `try:` block of `rsp_execute`: bounds check, fetch, dispatch, pixel
fill, scratch-memory write, coprocessor-PC advance.  The returned `Rcp` is the
state at the point the exception (if any) was raised. -/
def rspTry (rom_data : List Nat) (pc : Nat) (r : Rcp) : Rcp × Option PyErr :=
  if pc + 4 > rom_data.length then (r, some .valueError)
  else
    let opcode := word32At rom_data pc
    let op := (opcode >>> 26) &&& 0x3F
    match vuDispatch op opcode r with
    | (r1, some e) => (r1, some e)
    | (r1, none) =>
      match readColor r1.vu_registers with
      | none => (r1, some .indexError)
      | some c =>
        match fillFB r1.framebuffer c with
        | (fb, some e) => ({ r1 with framebuffer := fb }, some e)
        | (fb, none) =>
          let r2 := { r1 with framebuffer := fb }
          match listSet r2.rsp_memory (r2.rsp_pc % 0x1000) (opcode &&& 0xFFFF) with
          | none => (r2, some .indexError)
          | some mem => ({ r2 with rsp_memory := mem, rsp_pc := r2.rsp_pc + 4 }, none)

/-- `RealityCoprocessor.rsp_execute(rom_data, pc)`: activates the RSP, runs the
`try:` block with every exception caught internally, deactivates the RSP, and
always returns `pc + 4`. -/
def rsp_execute (rom_data : List Nat) (pc : Nat) (r : Rcp) : Rcp × Nat :=
  let r0 := { r with rsp_active := true, cycle_count := r.cycle_count + 10 }
  let r1 := (rspTry rom_data pc r0).1
  ({ r1 with rsp_active := false }, pc + 4)

/-- Colour of the fallback gradient test pattern at pixel `(x, y)`. -/
def patColor (x y : Nat) : Nat :=
  ((x * 255 / 320) % 256) <<< 16 ||| ((y * 255 / 240) % 256) <<< 8 |||
    ((x + y) * 255 / 560) % 256

/-- Inner loop of the test-pattern fill: `for x in range(320)` at row `y`. -/
def patColLoop (y : Nat) : List Nat → List (List Nat) → List (List Nat) × Option PyErr
  | [], fb => (fb, none)
  | x :: xs, fb =>
    match setCell fb y x (patColor x y) with
    | some fb1 => patColLoop y xs fb1
    | none => (fb, some .indexError)

/-- Outer loop of the test-pattern fill: `for y in range(240)`. -/
def patRowLoop : List Nat → List (List Nat) → List (List Nat) × Option PyErr
  | [], fb => (fb, none)
  | y :: ys, fb =>
    match patColLoop y (List.range 320) fb with
    | (fb1, none) => patRowLoop ys fb1
    | (fb1, some e) => (fb1, some e)

/-- The unconditional pixel-read loop of `rdp_render` (lines 87-96) reads
`framebuffer[y][x]` for every `y < 240`, `x < 320`; it raises `IndexError`
as soon as a row or a cell is missing.  Reads do not mutate, so only the
overall success is modelled. -/
def readsOk (fb : List (List Nat)) : Bool :=
  (List.range 240).all fun y =>
    match fb[y]? with
    | some row => decide (320 ≤ row.length)
    | none => false

/-- `RealityCoprocessor.rdp_render()`: optional test-pattern synthesis when the
buffer is all zero, then the full read-out.  `rdp_render` has no `try:`, so its
`IndexError`s propagate to the caller (the step loop's handler). -/
def rdp_render (r : Rcp) : Rcp × Option PyErr :=
  let r1 := { r with rdp_active := true }
  let has_data := r1.framebuffer.any fun row => row.any fun p => p != 0
  if !has_data && r1.use_test_pattern then
    match patRowLoop (List.range 240) r1.framebuffer with
    | (fb, some e) => ({ r1 with framebuffer := fb }, some e)
    | (fb, none) =>
      let r2 := { r1 with framebuffer := fb }
      if readsOk r2.framebuffer then
        ({ r2 with rdp_active := false, cycle_count := r2.cycle_count + 1000 }, none)
      else (r2, some .indexError)
  else
    if readsOk r1.framebuffer then
      ({ r1 with rdp_active := false, cycle_count := r1.cycle_count + 1000 }, none)
    else (r1, some .indexError)

/-- One save-state slot: exactly the seven components `save_state` copies.
The coprocessor's `vu_registers` are not among them. -/
structure Snapshot where
  frame_count : Nat
  pc : Nat
  cpu_registers : List Nat
  rom_title : String
  framebuffer : List (List Nat)
  rdram : List Nat
  rsp_memory : List Nat
  deriving DecidableEq, Repr

/-- The `N64Emulator` machine state (GUI widgets, plugin names, controller
bindings, speed multiplier and MD5 display string elided). -/
structure Machine where
  core_installed : Bool
  is_running : Bool
  rom_path : Option String
  rom_title : String
  rom_data : List Nat
  frame_count : Nat
  pc : Nat
  save_states : Nat → Option Snapshot
  cheat_codes : List (Option Nat)
  cpu_registers : List Nat
  rdram : List Nat
  netplay_enabled : Bool
  netplay_socket : Bool
  rcp : Rcp

/-- The decoder's shared operand variables: locals of `emulation_loop` that
every cached handler closure captures by reference. -/
structure Frame where
  rs : Nat
  rt : Nat
  rd : Nat
  imm : Nat
  target : Nat
  deriving DecidableEq, Repr

/-- Initial (never-read) values of the loop frame: a handler that reads a
variable exists only after a decode that bound it. -/
def initFrame : Frame := ⟨0, 0, 0, 0, 0⟩

/-- The code body of a cached handler lambda.  Operand values are *not* part
of the tag: the lambdas read `rs, rt, rd, imm, target` from the shared frame
at call time. -/
inductive HTag
  | add
  | sw
  | lw
  | j
  | jal
  | lui
  | nop
  deriving DecidableEq, Repr

/-- The state of one invocation of `emulation_loop`: the machine plus the
loop-local `dynarec_cache` and the shared decode variables. -/
structure LoopState where
  machine : Machine
  cache : Nat → Option HTag
  frame : Frame

/-- External nondeterminism consumed by one loop iteration: the per-cheat-code
`random.random() < 0.1` draws and the netplay `recv` outcome (`none` = the
receive raised inside its own `try/except: pass`). -/
structure Oracle where
  draws : Nat → Bool
  recv : Option (List Nat)

/-- Decode of the 6-bit primary opcode (lines 369-405): picks the handler tag
and rebinds the shared operand variables exactly as the source's assignments
to `rs`, `rt`, `rd`, `imm`, `target` do. -/
def decodeBind (opcode : Nat) (f : Frame) : HTag × Frame :=
  let op := (opcode >>> 26) &&& 0x3F
  if op = 0 then
    (.add, { f with rs := (opcode >>> 21) &&& 0x1F, rt := (opcode >>> 16) &&& 0x1F,
                    rd := (opcode >>> 11) &&& 0x1F })
  else if op = 0x2B then
    (.sw, { f with rt := (opcode >>> 16) &&& 0x1F })
  else if op = 0x23 then
    (.lw, { f with rt := (opcode >>> 16) &&& 0x1F, imm := opcode &&& 0xFFFF })
  else if op = 0x02 then
    (.j, { f with target := (opcode &&& 0x3FFFFFF) <<< 2 })
  else if op = 0x03 then
    (.jal, { f with target := (opcode &&& 0x3FFFFFF) <<< 2 })
  else if op = 0x0F then
    (.lui, { f with rt := (opcode >>> 16) &&& 0x1F, imm := (opcode &&& 0xFFFF) <<< 16 })
  else (.nop, f)

/-- Execution of a cached handler lambda with the current frame values.
Register-bank writes rebuild the list (`regs[:i] + [v] + regs[i+1:]`), and all
reads (which can raise) happen while the new list is built, before the single
`setattr`.  Note the JAL lambda uses `regs[:31] + [pc+8] + regs[31:]`, which
*inserts* at index 31 instead of replacing. -/
def applyHandler (t : HTag) (f : Frame) (m : Machine) : Machine × Option PyErr :=
  match t with
  | .add =>
    match m.cpu_registers[f.rs]?, m.cpu_registers[f.rt]? with
    | some a, some b =>
      ({ m with cpu_registers :=
          m.cpu_registers.take f.rd ++ [(a + b) &&& 0xFFFFFFFF] ++
            m.cpu_registers.drop (f.rd + 1) }, none)
    | _, _ => (m, some .indexError)
  | .sw =>
    match m.cpu_registers[f.rt]? with
    | some v =>
      ({ m with rcp := { m.rcp with vu_registers := v :: m.rcp.vu_registers.drop 1 } }, none)
    | none => (m, some .indexError)
  | .lw =>
    match m.rdram[f.imm % rdram_size]? with
    | some v =>
      ({ m with cpu_registers :=
          m.cpu_registers.take f.rt ++ [v] ++ m.cpu_registers.drop (f.rt + 1) }, none)
    | none => (m, some .indexError)
  | .j => ({ m with pc := (m.pc &&& 0xF0000000) ||| f.target }, none)
  | .jal =>
    ({ m with cpu_registers :=
        m.cpu_registers.take 31 ++ [m.pc + 8] ++ m.cpu_registers.drop 31,
              pc := (m.pc &&& 0xF0000000) ||| f.target }, none)
  | .lui =>
    ({ m with cpu_registers :=
        m.cpu_registers.take f.rt ++ [f.imm] ++ m.cpu_registers.drop (f.rt + 1) }, none)
  | .nop => (m, none)

/-- `dynarec_cache[self.pc]` after the populate-if-missing step: the cached tag
on a hit, the freshly decoded tag (with the frame rebound) on a miss.  The
lookup after population always succeeds, so no `KeyError` arm is needed. -/
def resolved (ls : LoopState) (opcode : Nat) : HTag × Frame :=
  match ls.cache ls.machine.pc with
  | some t => (t, ls.frame)
  | none => decodeBind opcode ls.frame

/-- The cheat-code loop: each code fires with the oracle's draw; a firing code
parses (`int(code, 16)`, `none` = `ValueError`) and is stored into register 1
modulo 0xFFFF by index assignment. -/
def cheatLoop (draws : Nat → Bool) : List (Option Nat) → Nat → Machine → Machine × Option PyErr
  | [], _, m => (m, none)
  | code :: rest, k, m =>
    if draws k then
      match code with
      | none => (m, some .valueError)
      | some v =>
        match listSet m.cpu_registers 1 (v % 0xFFFF) with
        | some regs => cheatLoop draws rest (k + 1) { m with cpu_registers := regs }
        | none => (m, some .indexError)
    else cheatLoop draws rest (k + 1) m

/-- `int.from_bytes(data, 'big')`. -/
def bytesToNat (data : List Nat) : Nat := data.foldl (fun a b => a * 256 + b) 0

/-- The netplay receive step: wrapped in its own `try/except: pass`, so it
never propagates an error; nonempty data lands in register 6 mod 0xFFFF. -/
def netplayStep (recv : Option (List Nat)) (m : Machine) : Machine :=
  if m.netplay_enabled && m.netplay_socket then
    match recv with
    | none => m
    | some data =>
      if data ≠ [] then
        match listSet m.cpu_registers 6 (bytesToNat data % 0xFFFF) with
        | some regs => { m with cpu_registers := regs }
        | none => m
      else m
  else m

/-- The tail of the loop body after the handler ran: PC advancement driven by
the opcode fetched *this* iteration (SW delegates to the coprocessor, J/JAL
already set the PC), then cheats, netplay and the render step. -/
def afterExec (o : Oracle) (op : Nat) (cache1 : Nat → Option HTag) (f1 : Frame)
    (m1 : Machine) : LoopState × Option PyErr :=
  let m2 :=
    if op = 0x2B then
      let rn := rsp_execute m1.rom_data m1.pc m1.rcp
      { m1 with rcp := rn.1, pc := rn.2 }
    else if op = 0x02 ∨ op = 0x03 then m1
    else { m1 with pc := m1.pc + 4 }
  match cheatLoop o.draws m2.cheat_codes 0 m2 with
  | (m3, some e) => (⟨m3, cache1, f1⟩, some e)
  | (m3, none) =>
    let m4 := netplayStep o.recv m3
    match rdp_render m4.rcp with
    | (rc, some e) => (⟨{ m4 with rcp := rc }, cache1, f1⟩, some e)
    | (rc, none) => (⟨{ m4 with rcp := rc }, cache1, f1⟩, none)

/-- The `try:` block of one `emulation_loop` iteration: fetch, populate the
handler cache on a miss, run the cached handler, then `afterExec`. -/
def tryBody (o : Oracle) (ls : LoopState) : LoopState × Option PyErr :=
  match fetchWord ls.machine.rom_data ls.machine.pc with
  | none => (ls, some .structError)
  | some opcode =>
    let op := (opcode >>> 26) &&& 0x3F
    let t := (resolved ls opcode).1
    let f1 := (resolved ls opcode).2
    let cache1 : Nat → Option HTag :=
      match ls.cache ls.machine.pc with
      | some _ => ls.cache
      | none => fun a => if a = ls.machine.pc then some t else ls.cache a
    match applyHandler t f1 ls.machine with
    | (m1, some e) => (⟨m1, cache1, f1⟩, some e)
    | (m1, none) => afterExec o op cache1 f1 m1

/-- One full iteration of the `while` body: the frame counter is bumped before
the `try:`; any exception inside it is caught and answered by `self.pc += 4`
applied to the state as it stood when the exception was raised. -/
def stepIter (o : Oracle) (ls : LoopState) : LoopState :=
  let m0 := { ls.machine with frame_count := ls.machine.frame_count + 1 }
  match tryBody o ⟨m0, ls.cache, ls.frame⟩ with
  | (ls1, none) => ls1
  | (ls1, some _) => ⟨{ ls1.machine with pc := ls1.machine.pc + 4 }, ls1.cache, ls1.frame⟩

/-- The `while` guard: `self.is_running and self.pc < len(self.rom_data)`. -/
def loopGuard (m : Machine) : Bool :=
  m.is_running && decide (m.pc < m.rom_data.length)

/-- Up to `n` iterations of the guarded loop (the source loops until the guard
fails; `n` is explicit fuel, and a failed guard freezes the state). -/
def runN (os : Nat → Oracle) : Nat → LoopState → LoopState
  | 0, ls => ls
  | n + 1, ls =>
    if loopGuard ls.machine then runN (fun k => os (k + 1)) n (stepIter (os 0) ls)
    else ls

/-- `emulation_loop`: its first statement creates a fresh, empty
`dynarec_cache`, so every invocation starts with no cached handlers. -/
def emulation_loop (os : Nat → Oracle) (fuel : Nat) (m : Machine) : LoopState :=
  runN os fuel ⟨m, fun _ => none, initFrame⟩

/-- `start_emulation`: refuses without a core or a ROM, is a no-op while
already running, otherwise sets the running flag and enters `emulation_loop`
on the worker thread.  When no loop is started the returned loop state is the
untouched machine with no cache. -/
def start_emulation (os : Nat → Oracle) (fuel : Nat) (m : Machine) : LoopState :=
  if !m.core_installed then ⟨m, fun _ => none, initFrame⟩
  else if m.rom_path.isNone then ⟨m, fun _ => none, initFrame⟩
  else if m.is_running then ⟨m, fun _ => none, initFrame⟩
  else emulation_loop os fuel { m with is_running := true }

/-- `pause_emulation`: clears the running flag if set. -/
def pause_emulation (m : Machine) : Machine :=
  if m.is_running then { m with is_running := false } else m

/-- `stop_emulation`: clears the flag, resets frame counter and PC, closes the
netplay socket if open. -/
def stop_emulation (m : Machine) : Machine :=
  { m with is_running := false, frame_count := 0, pc := 0x1000, netplay_socket := false }

/-- The snapshot `save_state` builds: seven deep-copied components. -/
def snapOf (m : Machine) : Snapshot :=
  ⟨m.frame_count, m.pc, m.cpu_registers, m.rom_title, m.rcp.framebuffer,
    m.rdram, m.rcp.rsp_memory⟩

/-- Result signal of `save_state` (the dialog boxes it pops). -/
inductive SaveSig
  | noRom
  | cancelled
  | saved
  deriving DecidableEq, Repr

/-- Result signal of `load_state`. -/
inductive LoadSig
  | noRom
  | slotNotFound
  | loaded
  deriving DecidableEq, Repr

/-- `save_state`: needs a loaded ROM; the slot dialog yields `none`
(cancelled) or an integer in [1,10]; `if slot:` drops a falsy slot; otherwise
the snapshot replaces whatever the slot held.  The xxhash fingerprint is
display-only and elided. -/
def save_state (m : Machine) (slot : Option Nat) : Machine × SaveSig :=
  if m.rom_path.isNone then (m, .noRom)
  else
    match slot with
    | none => (m, .cancelled)
    | some s =>
      if s = 0 then (m, .cancelled)
      else
        ({ m with save_states := fun k => if k = s then some (snapOf m) else m.save_states k },
          .saved)

/-- `load_state`: needs a loaded ROM; an unused (or cancelled) slot leaves the
machine untouched and warns; a found slot restores exactly the seven snapshot
components (the coprocessor's `vu_registers`, `rsp_pc`, `cycle_count` are not
restored). -/
def load_state (m : Machine) (slot : Option Nat) : Machine × LoadSig :=
  if m.rom_path.isNone then (m, .noRom)
  else
    match slot with
    | none => (m, .slotNotFound)
    | some s =>
      match m.save_states s with
      | none => (m, .slotNotFound)
      | some st =>
        let rc := { m.rcp with framebuffer := st.framebuffer, rsp_memory := st.rsp_memory }
        ({ m with frame_count := st.frame_count, pc := st.pc,
                  cpu_registers := st.cpu_registers, rom_title := st.rom_title,
                  rdram := st.rdram, rcp := rc }, .loaded)

/-- Error kinds of ROM loading. -/
inductive LoadErr
  | tooSmall
  | invalidHeader
  | indexError
  deriving DecidableEq, Repr

/-- One Python list comprehension `[rom[i] for i in idxs]` with checked
indexing: the first out-of-range index raises. -/
def pick (b : List Nat) : List Nat → Except LoadErr (List Nat)
  | [] => .ok []
  | i :: rest =>
    match b[i]? with
    | none => .error .indexError
    | some v =>
      match pick b rest with
      | .ok l => .ok (v :: l)
      | .error e => .error e

/-- The byte-order normalisation at the heart of `load_rom` (lines 244-258):
size check, header dispatch, and for the byte-swapped magic the literal
interleave `bytes([rom[i+1] for i in range(0, len, 2)] + [rom[i] for i in
range(0, len, 2)])`.  The surrounding GUI, title extraction, MD5 and register
seeding are outside this function; any exception here is caught by
`load_rom`'s `except` and surfaced as a load failure. -/
def load_rom_normalize (b : List Nat) : Except LoadErr (List Nat) :=
  if b.length < 64 then .error .tooSmall
  else if b.take 4 = [0x80, 0x37, 0x12, 0x40] then .ok b
  else if b.take 4 = [0x37, 0x80, 0x40, 0x12] then
    match pick b ((List.range ((b.length + 1) / 2)).map fun k => 2 * k + 1) with
    | .error e => .error e
    | .ok odds =>
      match pick b ((List.range ((b.length + 1) / 2)).map fun k => 2 * k) with
      | .error e => .error e
      | .ok evens => .ok (odds ++ evens)
  else if b.take 4 = [0x40, 0x12, 0x37, 0x80] then .ok b.reverse
  else .error .invalidHeader

/-! ### Characterisation of the coprocessor pixel fill -/

lemma getElem?_some_lt {α : Type} {l : List α} {n : Nat} {a : α} (h : l[n]? = some a) :
    n < l.length := by
  by_contra hn
  rw [List.getElem?_eq_none (by omega)] at h
  exact Option.noConfusion h

lemma colLoop_spec (c i : Nat) : ∀ (n a : Nat) (fb : List (List Nat)),
    (∀ j, a ≤ j → j < a + n → ∃ row, fb[j]? = some row ∧ i < row.length) →
    ∃ fb1, colLoop c i (List.range' a n) fb = (fb1, none) ∧
      fb1.length = fb.length ∧
      ∀ j, fb1[j]? =
        if a ≤ j ∧ j < a + n then (fb[j]?).map (fun row => row.set i c) else fb[j]? := by
  intro n
  induction n with
  | zero =>
    intro a fb _
    refine ⟨fb, rfl, rfl, fun j => ?_⟩
    rw [if_neg (by omega)]
  | succ n ih =>
    intro a fb h
    obtain ⟨row, hrow, hi⟩ := h a (le_refl a) (by omega)
    have ha : a < fb.length := getElem?_some_lt hrow
    have hset : setCell fb a i c = some (fb.set a (row.set i c)) := by
      simp only [setCell, hrow]
      rw [if_pos hi]
    have hstep : colLoop c i (List.range' a (n + 1)) fb =
        colLoop c i (List.range' (a + 1) n) (fb.set a (row.set i c)) := by
      rw [List.range'_succ]
      simp [colLoop, hset]
    obtain ⟨fb1, hrun, hlen, hchar⟩ := ih (a + 1) (fb.set a (row.set i c)) (by
      intro j hj1 hj2
      obtain ⟨r2, hr2, hi2⟩ := h j (by omega) (by omega)
      exact ⟨r2, by rw [List.getElem?_set_ne (by omega), hr2], hi2⟩)
    refine ⟨fb1, by rw [hstep, hrun], by rw [hlen, List.length_set], fun j => ?_⟩
    rcases Nat.lt_trichotomy j a with hja | hja | hja
    · rw [hchar j, if_neg (by omega), if_neg (by omega), List.getElem?_set_ne (by omega)]
    · subst hja
      rw [hchar j, if_neg (by omega), if_pos ⟨le_refl j, by omega⟩,
        List.getElem?_set_eq_of_lt _ ha, hrow]
      rfl
    · by_cases hjn : j < a + (n + 1)
      · rw [hchar j, if_pos (by omega), if_pos (by omega), List.getElem?_set_ne (by omega)]
      · rw [hchar j, if_neg (by omega), if_neg (by omega), List.getElem?_set_ne (by omega)]

lemma rowLoop_spec (c : Nat) : ∀ (k a : Nat) (fb : List (List Nat)),
    240 ≤ fb.length → (∀ row ∈ fb, row.length = 320) → a + k ≤ 320 →
    ∃ fb1, rowLoop c (List.range' a k) fb = (fb1, none) ∧
      fb1.length = fb.length ∧ (∀ row ∈ fb1, row.length = 320) ∧
      (∀ j x, j < 240 → a ≤ x → x < a + k →
        (fb1[j]?).bind (fun row : List Nat => row[x]?) = some c) ∧
      (∀ (j x : Nat), x < a ∨ a + k ≤ x →
        (fb1[j]?).bind (fun row : List Nat => row[x]?) =
          (fb[j]?).bind (fun row : List Nat => row[x]?)) := by
  intro k
  induction k with
  | zero =>
    intro a fb h240 hrows _
    exact ⟨fb, rfl, rfl, hrows, fun j x _ h1 h2 => by omega, fun j x _ => rfl⟩
  | succ k ih =>
    intro a fb h240 hrows hak
    obtain ⟨fbm, hcol, hlen, hchar⟩ := colLoop_spec c a 240 0 fb (by
      intro j _ hj
      have hj1 : j < fb.length := by omega
      refine ⟨fb[j], by simp [List.getElem?_eq_getElem hj1], ?_⟩
      rw [hrows fb[j] (fb.getElem_mem hj1)]
      omega)
    have hstep : rowLoop c (List.range' a (k + 1)) fb =
        rowLoop c (List.range' (a + 1) k) fbm := by
      rw [List.range'_succ]
      simp only [rowLoop]
      rw [List.range_eq_range', hcol]
    have hmem : ∀ row ∈ fbm, row.length = 320 := by
      intro row hr
      obtain ⟨n, hn⟩ := List.mem_iff_get?.1 hr
      rw [List.get?_eq_getElem?] at hn
      rw [hchar n] at hn
      by_cases h : 0 ≤ n ∧ n < 0 + 240
      · rw [if_pos h] at hn
        obtain ⟨r0, hr0, hmap⟩ := Option.map_eq_some'.1 hn
        rw [← hmap, List.length_set]
        exact hrows r0 (List.get?_mem (by rw [List.get?_eq_getElem?]; exact hr0))
      · rw [if_neg h] at hn
        exact hrows row (List.get?_mem (by rw [List.get?_eq_getElem?]; exact hn))
    obtain ⟨fb1, hrun, hlen1, hrows1, hset1, hpres1⟩ := ih (a + 1) fbm
      (by rw [hlen]; exact h240) hmem (by omega)
    refine ⟨fb1, by rw [hstep, hrun], by rw [hlen1, hlen], hrows1, ?_, ?_⟩
    · intro j x hj hax hxk
      by_cases hxa : x = a
      · subst hxa
        rw [hpres1 j x (by omega)]
        rw [hchar j, if_pos (by omega)]
        have hj1 : j < fb.length := by omega
        simp only [List.getElem?_eq_getElem hj1, Option.map_some', Option.some_bind]
        rw [List.getElem?_set_eq_of_lt]
        rw [hrows fb[j] (fb.getElem_mem hj1)]
        omega
      · exact hset1 j x hj (by omega) (by omega)
    · intro j x hx
      rw [hpres1 j x (by omega)]
      rw [hchar j]
      by_cases hj : 0 ≤ j ∧ j < 0 + 240
      · rw [if_pos hj]
        rcases h : fb[j]? with _ | row
        · rfl
        · simp only [Option.map_some', Option.some_bind]
          rw [List.getElem?_set_ne (by omega)]
      · rw [if_neg hj]

lemma fillFB_ok (fb : List (List Nat)) (c : Nat) (h240 : fb.length = 240)
    (hrows : ∀ row ∈ fb, row.length = 320) :
    ∃ fb1, fillFB fb c = (fb1, none) ∧
      ∀ j x, j < 240 → x < 320 →
        (fb1[j]?).bind (fun row : List Nat => row[x]?) = some c := by
  obtain ⟨fb1, hrun, _, _, hset, _⟩ :=
    rowLoop_spec c 320 0 fb (by omega) hrows (by omega)
  refine ⟨fb1, ?_, fun j x hj hx => hset j x hj (by omega) (by omega)⟩
  rw [fillFB, List.range_eq_range', hrun]

lemma mask5_lt_32 (x : Nat) : x &&& 0x1F < 32 := by
  have := Nat.and_le_right (n := x) (m := 0x1F)
  omega

lemma vuDispatch_ok (op opcode : Nat) (r : Rcp) (h32 : r.vu_registers.length = 32) :
    (vuDispatch op opcode r).2 = none ∧
    (vuDispatch op opcode r).1.vu_registers.length = 32 ∧
    (vuDispatch op opcode r).1.framebuffer = r.framebuffer ∧
    (vuDispatch op opcode r).1.rsp_memory = r.rsp_memory ∧
    (vuDispatch op opcode r).1.rsp_pc = r.rsp_pc := by
  by_cases h1 : op = 0x32
  · have hrs : (opcode >>> 21) &&& 0x1F < r.vu_registers.length := by
      rw [h32]; exact mask5_lt_32 _
    have hrt : (opcode >>> 16) &&& 0x1F < r.vu_registers.length := by
      rw [h32]; exact mask5_lt_32 _
    have hrd : (opcode >>> 11) &&& 0x1F < r.vu_registers.length := by
      rw [h32]; exact mask5_lt_32 _
    simp only [vuDispatch, if_pos h1, List.getElem?_eq_getElem hrs,
      List.getElem?_eq_getElem hrt, listSet, if_pos hrd]
    simp [List.length_set, h32]
  · by_cases h2 : op = 0x33
    · have hrs : (opcode >>> 21) &&& 0x1F < r.vu_registers.length := by
        rw [h32]; exact mask5_lt_32 _
      have hrt : (opcode >>> 16) &&& 0x1F < r.vu_registers.length := by
        rw [h32]; exact mask5_lt_32 _
      have hrd : (opcode >>> 11) &&& 0x1F < r.vu_registers.length := by
        rw [h32]; exact mask5_lt_32 _
      simp only [vuDispatch, if_neg h1, if_pos h2, List.getElem?_eq_getElem hrs,
        List.getElem?_eq_getElem hrt, listSet, if_pos hrd]
      simp [List.length_set, h32]
    · by_cases h3 : op = 0x34
      · have hrs : (opcode >>> 21) &&& 0x1F < r.vu_registers.length := by
          rw [h32]; exact mask5_lt_32 _
        have hrd : (opcode >>> 11) &&& 0x1F < r.vu_registers.length := by
          rw [h32]; exact mask5_lt_32 _
        simp only [vuDispatch, if_neg h1, if_neg h2, if_pos h3,
          List.getElem?_eq_getElem hrs, listSet, if_pos hrd]
        simp [List.length_set, h32]
      · simp [vuDispatch, if_neg h1, if_neg h2, if_neg h3, h32]

/-- C8: for every call to the coprocessor's executeAt (`rsp_execute`) with
pc + 4 within the image, every pixel of the 320x240 buffer afterwards equals
the single packed colour built from the post-execution values of vector
registers 0-2, regardless of which sub-opcode (if any) was decoded. -/
theorem rsp_execute_uniform_recolor (rom_data : List Nat) (pc : Nat) (r : Rcp)
    (hpc : pc + 4 ≤ rom_data.length)
    (hvu : r.vu_registers.length = 32)
    (hfb : r.framebuffer.length = 240)
    (hrows : ∀ row ∈ r.framebuffer, row.length = 320) :
    ∃ v0 v1 v2,
      (rsp_execute rom_data pc r).1.vu_registers[0]? = some v0 ∧
      (rsp_execute rom_data pc r).1.vu_registers[1]? = some v1 ∧
      (rsp_execute rom_data pc r).1.vu_registers[2]? = some v2 ∧
      ∀ j i, j < 240 → i < 320 →
        ((rsp_execute rom_data pc r).1.framebuffer[j]?).bind
            (fun row : List Nat => row[i]?) =
          some (((v0 % 256) <<< 16) ||| ((v1 % 256) <<< 8) ||| (v2 % 256)) := by
  set r0 : Rcp := { r with rsp_active := true, cycle_count := r.cycle_count + 10 } with hr0
  have h32 : r0.vu_registers.length = 32 := hvu
  obtain ⟨hde, hdl, hdfb, hdm, hdpc⟩ :=
    vuDispatch_ok ((word32At rom_data pc >>> 26) &&& 0x3F) (word32At rom_data pc) r0 h32
  rcases hvd : vuDispatch ((word32At rom_data pc >>> 26) &&& 0x3F) (word32At rom_data pc) r0
    with ⟨r1, e1⟩
  rw [hvd] at hde hdl hdfb hdm hdpc
  simp only at hde hdl hdfb hdm hdpc
  subst hde
  have h0 : 0 < r1.vu_registers.length := by omega
  have h1 : 1 < r1.vu_registers.length := by omega
  have h2 : 2 < r1.vu_registers.length := by omega
  have hcolor : readColor r1.vu_registers =
      some (((r1.vu_registers[0] % 256) <<< 16) ||| ((r1.vu_registers[1] % 256) <<< 8) |||
        (r1.vu_registers[2] % 256)) := by
    simp only [readColor, List.getElem?_eq_getElem h0, List.getElem?_eq_getElem h1,
      List.getElem?_eq_getElem h2]
  obtain ⟨fb1, hfill, hcells⟩ := fillFB_ok r1.framebuffer
    (((r1.vu_registers[0] % 256) <<< 16) ||| ((r1.vu_registers[1] % 256) <<< 8) |||
      (r1.vu_registers[2] % 256))
    (by rw [hdfb]; exact hfb) (by rw [hdfb]; exact hrows)
  have hproj : (rspTry rom_data pc r0).1.vu_registers = r1.vu_registers ∧
      (rspTry rom_data pc r0).1.framebuffer = fb1 := by
    simp only [rspTry, if_neg (by omega : ¬ pc + 4 > rom_data.length), hvd, hcolor, hfill]
    split
    · exact ⟨rfl, rfl⟩
    · exact ⟨rfl, rfl⟩
  have hv : (rsp_execute rom_data pc r).1.vu_registers =
      (rspTry rom_data pc r0).1.vu_registers := rfl
  have hf : (rsp_execute rom_data pc r).1.framebuffer =
      (rspTry rom_data pc r0).1.framebuffer := rfl
  refine ⟨r1.vu_registers[0], r1.vu_registers[1], r1.vu_registers[2], ?_, ?_, ?_, ?_⟩
  · rw [hv, hproj.1]
    exact List.getElem?_eq_getElem h0
  · rw [hv, hproj.1]
    exact List.getElem?_eq_getElem h1
  · rw [hv, hproj.1]
    exact List.getElem?_eq_getElem h2
  · intro j i hj hi
    rw [hf, hproj.2]
    exact hcells j i hj hi

lemma mem_of_getElem?_some {α : Type} {l : List α} {n : Nat} {a : α} (h : l[n]? = some a) :
    a ∈ l :=
  List.get?_mem (by rw [List.get?_eq_getElem?]; exact h)

lemma mem_listSet_le {l l2 : List Nat} {i v M : Nat} (hs : listSet l i v = some l2)
    (hl : ∀ x ∈ l, x ≤ M) (hv : v ≤ M) : ∀ x ∈ l2, x ≤ M := by
  unfold listSet at hs
  split at hs
  · cases hs
    intro x hx
    rcases List.mem_or_eq_of_mem_set hx with h | h
    · exact hl x h
    · omega
  · exact Option.noConfusion hs

lemma vuDispatch_pres {M : Nat} (hM : 0xFFFF ≤ M) (op opcode : Nat) (r : Rcp)
    (h : ∀ v ∈ r.vu_registers, v ≤ M) :
    ∀ v ∈ (vuDispatch op opcode r).1.vu_registers, v ≤ M := by
  unfold vuDispatch
  split_ifs with h1 h2 h3
  · rcases hrs : r.vu_registers[(opcode >>> 21) &&& 0x1F]? with _ | a
    · simp [hrs]
      exact h
    · rcases hrt : r.vu_registers[(opcode >>> 16) &&& 0x1F]? with _ | b
      · simp [hrs, hrt]
        exact h
      · rcases hset : listSet r.vu_registers ((opcode >>> 11) &&& 0x1F) ((a + b) &&& 0xFFFF)
          with _ | vu
        · simp [hrs, hrt, hset]
          exact h
        · simp only [hrs, hrt, hset]
          exact mem_listSet_le hset h (by have := Nat.and_le_right (n := a + b) (m := 0xFFFF); omega)
  · rcases hrs : r.vu_registers[(opcode >>> 21) &&& 0x1F]? with _ | a
    · simp [hrs]
      exact h
    · rcases hrt : r.vu_registers[(opcode >>> 16) &&& 0x1F]? with _ | b
      · simp [hrs, hrt]
        exact h
      · rcases hset : listSet r.vu_registers ((opcode >>> 11) &&& 0x1F) ((a * b) &&& 0xFFFF)
          with _ | vu
        · simp [hrs, hrt, hset]
          exact h
        · simp only [hrs, hrt, hset]
          exact mem_listSet_le hset h (by have := Nat.and_le_right (n := a * b) (m := 0xFFFF); omega)
  · rcases hrs : r.vu_registers[(opcode >>> 21) &&& 0x1F]? with _ | a
    · simp [hrs]
      exact h
    · rcases hset : listSet r.vu_registers ((opcode >>> 11) &&& 0x1F) a with _ | vu
      · simp [hrs, hset]
        exact h
      · simp only [hrs, hset]
        exact mem_listSet_le hset h (h a (mem_of_getElem?_some hrs))
  · exact h

lemma rspTry_vu (rom_data : List Nat) (pc : Nat) (r : Rcp) :
    (rspTry rom_data pc r).1.vu_registers = r.vu_registers ∨
    (rspTry rom_data pc r).1.vu_registers =
      (vuDispatch ((word32At rom_data pc >>> 26) &&& 0x3F) (word32At rom_data pc) r).1.vu_registers := by
  unfold rspTry
  split
  · exact Or.inl rfl
  · rcases hvd : vuDispatch ((word32At rom_data pc >>> 26) &&& 0x3F) (word32At rom_data pc) r
      with ⟨r1, e⟩
    rcases e with _ | e
    · rcases hc : readColor r1.vu_registers with _ | c
      · simp [hvd, hc]
      · rcases hfill : fillFB r1.framebuffer c with ⟨fb, ef⟩
        rcases ef with _ | ef
        · rcases hms : listSet r1.rsp_memory (r1.rsp_pc % 0x1000) (word32At rom_data pc &&& 0xFFFF)
            with _ | mem
          · simp [hvd, hc, hfill, hms]
          · simp [hvd, hc, hfill, hms]
        · simp [hvd, hc, hfill]
    · simp [hvd]

/-- Oracle with no cheat firings and no netplay data. -/
def os0 : Nat → Oracle := fun _ => ⟨fun _ => false, none⟩

/-- A quiescent coprocessor with an empty pixel buffer. -/
def rcp0 : Rcp :=
  { framebuffer := [], rsp_active := false, rdp_active := false, cycle_count := 0,
    vu_registers := List.replicate 32 0, rsp_pc := 0, rsp_status := 0,
    rsp_memory := List.replicate 16 0, use_test_pattern := false }

/-- A correctly shaped 320x240 pixel buffer with one nonzero pixel. -/
def fbFull : List (List Nat) :=
  (List.replicate 320 1) :: List.replicate 239 (List.replicate 320 0)

/-- A base running machine with a loaded ROM path and zeroed registers. -/
def m0 : Machine :=
  { core_installed := true, is_running := true, rom_path := some "rom", rom_title := "",
    rom_data := [], frame_count := 0, pc := 0, save_states := fun _ => none,
    cheat_codes := [], cpu_registers := List.replicate 32 0, rdram := [0, 0],
    netplay_enabled := false, netplay_socket := false, rcp := rcp0 }

/-- Machine about to execute `SW` (opcode 0x2B, rt = 2) with a 32-bit value in
register 2. -/
def mSW : Machine :=
  { m0 with rom_data := [0xAC, 0x02, 0x00, 0x00],
            cpu_registers := [0, 0, 0x10000] ++ List.replicate 29 0 }

/-- The frame state after decoding the `SW` instruction of `mSW`. -/
def fSW : Frame := ⟨0, 2, 0, 0, 0⟩

set_option maxRecDepth 10000
set_option maxHeartbeats 1000000

/-- C2 counterexample: one scalar step executing `SW` (vu[0] := r[2]) on a
machine whose vector registers are all within 16 bits and whose register 2
holds 0x10000 leaves vu[0] = 0x10000, outside [0, 0xFFFF] — the SW write is
not masked. -/
theorem c2_counterexample :
    (∀ v ∈ mSW.rcp.vu_registers, v ≤ 0xFFFF) ∧
    (runN os0 1 ⟨mSW, fun _ => none, initFrame⟩).machine.rcp.vu_registers[0]? = some 0x10000 ∧
    ¬ 0x10000 ≤ 0xFFFF := by
  refine ⟨by decide, by decide, by decide⟩

/-- C2 (amended): the coprocessor's own register writes preserve the 16-bit
range (VADD/VMUL mask with 0xFFFF, VMOV copies an in-range value), but the
`SW` handler stores the full 32-bit scalar register into vector register 0
without masking. -/
theorem c2_amended :
    (∀ rom_data pc r, (∀ v ∈ r.vu_registers, v ≤ 0xFFFF) →
      ∀ v ∈ (rsp_execute rom_data pc r).1.vu_registers, v ≤ 0xFFFF) ∧
    (∀ f m x, m.cpu_registers[f.rt]? = some x →
      (applyHandler .sw f m).1.rcp.vu_registers = x :: m.rcp.vu_registers.drop 1) := by
  constructor
  · intro rom_data pc r h
    have hv : (rsp_execute rom_data pc r).1.vu_registers =
        (rspTry rom_data pc { r with rsp_active := true, cycle_count := r.cycle_count + 10 }).1.vu_registers := rfl
    rw [hv]
    rcases rspTry_vu rom_data pc { r with rsp_active := true, cycle_count := r.cycle_count + 10 }
      with hc | hc
    · rw [hc]
      exact h
    · rw [hc]
      exact vuDispatch_pres (le_refl _) _ _ _ h
  · intro f m x hx
    simp only [applyHandler, hx]

/-- C2 witness: the amended theorem applied at concrete inputs. -/
theorem c2_witness :
    (∀ v ∈ rcp0.vu_registers, v ≤ 0xFFFF) ∧
    (∀ v ∈ (rsp_execute [] 0 rcp0).1.vu_registers, v ≤ 0xFFFF) ∧
    (mSW.cpu_registers[fSW.rt]? = some 0x10000) ∧
    (applyHandler .sw fSW mSW).1.rcp.vu_registers =
      0x10000 :: mSW.rcp.vu_registers.drop 1 := by
  refine ⟨by decide, c2_amended.1 [] 0 rcp0 (by decide), by decide, ?_⟩
  exact c2_amended.2 fSW mSW 0x10000 (by decide)

lemma applyHandler_err {t : HTag} {f : Frame} {m : Machine} {e : PyErr}
    (h : (applyHandler t f m).2 = some e) : (applyHandler t f m).1 = m := by
  cases t
  all_goals simp only [applyHandler] at h ⊢
  case add =>
    rcases h1 : m.cpu_registers[f.rs]? with _ | a <;>
      rcases h2 : m.cpu_registers[f.rt]? with _ | b <;> simp [h1, h2] at h ⊢
  case sw => rcases h1 : m.cpu_registers[f.rt]? with _ | a <;> simp [h1] at h ⊢
  case lw => rcases h1 : m.rdram[f.imm % rdram_size]? with _ | a <;> simp [h1] at h ⊢
  case j => exact Option.noConfusion h
  case jal => exact Option.noConfusion h
  case lui => exact Option.noConfusion h

lemma afterExec_cache_frame (o : Oracle) (op : Nat) (c : Nat → Option HTag) (f : Frame)
    (m : Machine) : (afterExec o op c f m).1.cache = c ∧ (afterExec o op c f m).1.frame = f := by
  simp only [afterExec]
  split
  · exact ⟨rfl, rfl⟩
  · split <;> exact ⟨rfl, rfl⟩

lemma stepIter_cache_eq (o : Oracle) (ls : LoopState) :
    (stepIter o ls).cache =
      (tryBody o ⟨{ ls.machine with frame_count := ls.machine.frame_count + 1 },
        ls.cache, ls.frame⟩).1.cache := by
  simp only [stepIter]
  rcases h : tryBody o ⟨{ ls.machine with frame_count := ls.machine.frame_count + 1 },
      ls.cache, ls.frame⟩ with ⟨ls1, e⟩
  cases e <;> rfl

lemma tryBody_cache (o : Oracle) (ls : LoopState) :
    (tryBody o ls).1.cache =
      match fetchWord ls.machine.rom_data ls.machine.pc with
      | none => ls.cache
      | some opcode =>
        match ls.cache ls.machine.pc with
        | some _ => ls.cache
        | none => fun a => if a = ls.machine.pc then some (resolved ls opcode).1 else ls.cache a := by
  unfold tryBody
  rcases hf : fetchWord ls.machine.rom_data ls.machine.pc with _ | opcode
  · rfl
  · rcases hc : ls.cache ls.machine.pc with _ | t
    · simp only [hc]
      rcases ha : applyHandler (resolved ls opcode).1 (resolved ls opcode).2 ls.machine with ⟨m1, e⟩
      cases e
      · exact (afterExec_cache_frame o ((opcode >>> 26) &&& 0x3F) _ _ m1).1
      · rfl
    · simp only [hc]
      rcases ha : applyHandler (resolved ls opcode).1 (resolved ls opcode).2 ls.machine with ⟨m1, e⟩
      cases e
      · exact (afterExec_cache_frame o ((opcode >>> 26) &&& 0x3F) _ _ m1).1
      · rfl

/-- One loop iteration as it unfolds when the handler for the current PC is
already cached with tag `t`: no decode, no frame rebinding, no cache write;
the handler body `t` runs on the *current* shared frame, and PC advancement
follows the opcode fetched this iteration. -/
def stepResolvedAs (o : Oracle) (t : HTag) (ls : LoopState) : LoopState :=
  let m0 := { ls.machine with frame_count := ls.machine.frame_count + 1 }
  match fetchWord m0.rom_data m0.pc with
  | none => ⟨{ m0 with pc := m0.pc + 4 }, ls.cache, ls.frame⟩
  | some opcode =>
    let op := (opcode >>> 26) &&& 0x3F
    match applyHandler t ls.frame m0 with
    | (m1, some _) => ⟨{ m1 with pc := m1.pc + 4 }, ls.cache, ls.frame⟩
    | (m1, none) =>
      match afterExec o op ls.cache ls.frame m1 with
      | (ls1, none) => ls1
      | (ls1, some _) => ⟨{ ls1.machine with pc := ls1.machine.pc + 4 }, ls1.cache, ls1.frame⟩

/-- C1 (amended): once a handler is cached for an address it is never
re-decoded or invalidated — every cache entry survives any step verbatim, and
a step whose PC hits the cache executes exactly the cached opcode tag.  But
the tag's operand fields are read at execution time from the decoder's shared
variables (the last values bound by the most recent decode at *any* address),
and PC advancement / coprocessor dispatch follow the opcode fetched at
execution time, so the replayed semantics need not be those decoded first. -/
theorem c1_amended :
    (∀ (o : Oracle) (ls : LoopState) (A : Nat) (t : HTag),
      ls.cache A = some t → (stepIter o ls).cache A = some t) ∧
    (∀ (o : Oracle) (ls : LoopState) (t : HTag),
      ls.cache ls.machine.pc = some t → stepIter o ls = stepResolvedAs o t ls) := by
  constructor
  · intro o ls A t h
    rw [stepIter_cache_eq, tryBody_cache]
    simp only
    rcases hf : fetchWord ls.machine.rom_data ls.machine.pc with _ | opcode
    · exact h
    · rcases hc : ls.cache ls.machine.pc with _ | t2
      · simp only
        by_cases hA : A = ls.machine.pc
        · rw [hA] at h
          rw [h] at hc
          exact Option.noConfusion hc
        · rw [if_neg hA]
          exact h
      · exact h
  · intro o ls t h
    have hres : ∀ opcode : Nat,
        resolved ⟨{ ls.machine with frame_count := ls.machine.frame_count + 1 },
          ls.cache, ls.frame⟩ opcode = (t, ls.frame) := by
      intro opcode
      simp [resolved, h]
    simp only [stepIter, stepResolvedAs, tryBody]
    rcases hf : fetchWord ls.machine.rom_data ls.machine.pc with _ | opcode
    · simp only [hf]
    · simp only [hf, hres, h]
      rcases ha : applyHandler t ls.frame
          { ls.machine with frame_count := ls.machine.frame_count + 1 } with ⟨m1, e⟩
      rcases e with _ | e <;> simp only [ha]

/-- C5: an exception raised while decoding or executing an instruction never
propagates out of a step.  A fetch past the end of the image (`PC + 4 >
length`) leaves everything except the frame counter untouched and advances PC
by 4; a handler that raises during execution likewise mutates nothing and the
step ends with PC advanced by exactly 4. -/
theorem c5_error_skip :
    (∀ (o : Oracle) (ls : LoopState),
      ls.machine.pc + 4 > ls.machine.rom_data.length →
      stepIter o ls =
        ⟨{ ls.machine with
            frame_count := ls.machine.frame_count + 1,
            pc := ls.machine.pc + 4 },
          ls.cache, ls.frame⟩) ∧
    (∀ (o : Oracle) (ls : LoopState) (opcode : Nat) (e : PyErr),
      fetchWord ls.machine.rom_data ls.machine.pc = some opcode →
      (applyHandler (resolved ls opcode).1 (resolved ls opcode).2
        { ls.machine with frame_count := ls.machine.frame_count + 1 }).2 = some e →
      (stepIter o ls).machine =
        { ls.machine with
            frame_count := ls.machine.frame_count + 1,
            pc := ls.machine.pc + 4 }) := by
  constructor
  · intro o ls h
    have hf : fetchWord ls.machine.rom_data ls.machine.pc = none := by
      unfold fetchWord
      rw [if_pos h]
    simp only [stepIter, tryBody, hf]
  · intro o ls opcode e hf ha
    have hres : resolved ⟨{ ls.machine with frame_count := ls.machine.frame_count + 1 },
        ls.cache, ls.frame⟩ opcode = resolved ls opcode := rfl
    have hm1 : (applyHandler (resolved ls opcode).1 (resolved ls opcode).2
        { ls.machine with frame_count := ls.machine.frame_count + 1 }).1 =
        { ls.machine with frame_count := ls.machine.frame_count + 1 } := applyHandler_err ha
    simp only [stepIter, tryBody, hf, hres]
    rcases hap : applyHandler (resolved ls opcode).1 (resolved ls opcode).2
        { ls.machine with frame_count := ls.machine.frame_count + 1 } with ⟨m1, e2⟩
    rw [hap] at ha hm1
    simp only at ha hm1
    subst ha
    subst hm1
    simp only

lemma pause_fields (m : Machine) :
    (pause_emulation m).core_installed = m.core_installed ∧
    (pause_emulation m).rom_path = m.rom_path ∧
    (pause_emulation m).is_running = false ∧
    (pause_emulation m).pc = m.pc ∧
    (pause_emulation m).rom_data = m.rom_data := by
  unfold pause_emulation
  split
  · exact ⟨rfl, rfl, rfl, rfl, rfl⟩
  · refine ⟨rfl, rfl, ?_, rfl, rfl⟩
    rename_i h
    simp only [Bool.not_eq_true] at h
    exact h

/-- C10: the handler cache lives and dies with one invocation of
`emulation_loop`.  Restarting after a pause runs the loop on a state whose
cache is empty (whatever any earlier run had cached), and the first visited
address is decoded afresh from the current image bytes. -/
theorem c10_fresh_cache_per_run (os : Nat → Oracle) (fuel : Nat) (m : Machine)
    (hcore : m.core_installed = true) (hpath : m.rom_path.isSome) :
    (start_emulation os fuel (pause_emulation m) =
      runN os fuel ⟨{ pause_emulation m with is_running := true },
        fun _ => none, initFrame⟩) ∧
    (∀ opcode : Nat, fetchWord m.rom_data m.pc = some opcode →
      m.pc < m.rom_data.length →
      (start_emulation os 1 (pause_emulation m)).cache m.pc =
        some (decodeBind opcode initFrame).1) := by
  obtain ⟨hc, hp, hr, hpc, hrd⟩ := pause_fields m
  have hstart : ∀ fl, start_emulation os fl (pause_emulation m) =
      runN os fl ⟨{ pause_emulation m with is_running := true }, fun _ => none, initFrame⟩ := by
    intro fl
    unfold start_emulation
    have h1 : (!(pause_emulation m).core_installed) = false := by
      rw [hc, hcore]
      rfl
    have h2 : (pause_emulation m).rom_path.isNone = false := by
      rw [hp]
      rcases hx : m.rom_path with _ | p
      · rw [hx] at hpath
        exact absurd hpath (by simp)
      · rfl
    rw [h1, h2, hr]
    simp only [Bool.false_eq_true, if_false, emulation_loop]
  refine ⟨hstart fuel, ?_⟩
  intro opcode hop hlt
  rw [hstart 1]
  have hguard : loopGuard ({ pause_emulation m with is_running := true } : Machine) = true := by
    unfold loopGuard
    simp only [hpc, hrd]
    simp [hlt]
  simp only [runN, hguard, if_true]
  rw [stepIter_cache_eq, tryBody_cache]
  simp only [hpc, hrd, hop]
  simp [resolved, hpc]

/-- Three-instruction program: `ADD r1 := r1 + r2` at address 0 (word
0x00220800), `ADD r4 := r5 + r6` at address 4 (word 0x00A62000), `J 0` at
address 8 (word 0x08000000). -/
def rom12 : List Nat :=
  [0x00, 0x22, 0x08, 0x00, 0x00, 0xA6, 0x20, 0x00, 0x08, 0x00, 0x00, 0x00]

/-- Machine running `rom12` from PC 0 with r1 = 7, r2 = 10, r5 = 100, r6 = 1
and a well-shaped pixel buffer. -/
def mC1 : Machine :=
  { m0 with rom_data := rom12,
            cpu_registers := [0, 7, 10, 0, 0, 100, 1] ++ List.replicate 25 0,
            rcp := { rcp0 with framebuffer := fbFull } }

/-- C1 counterexample: iterations 1-3 decode `ADD r1 := r1 + r2` at 0 (r1
becomes 17), decode `ADD r4 := r5 + r6` at 4 (rebinding the shared operand
variables), and jump back to 0.  Iteration 4 hits the cache at 0, but the
cached ADD handler now reads rs = 5, rt = 6, rd = 4, so it writes r4 and
leaves r1 = 17 — whereas replaying the operands decoded at 0 the first time
would set r1 = r1 + r2 = 27.  The claimed first-decode-wins semantics fail. -/
theorem c1_counterexample :
    ((runN os0 4 ⟨mC1, fun _ => none, initFrame⟩).machine.cpu_registers[1]? = some 17) ∧
    ((applyHandler (decodeBind (word32At rom12 0) initFrame).1
        (decodeBind (word32At rom12 0) initFrame).2
        (runN os0 3 ⟨mC1, fun _ => none, initFrame⟩).machine).1.cpu_registers[1]? =
      some 27) ∧
    (17 : Nat) ≠ 27 := by
  exact ⟨by decide, by decide, by decide⟩

/-- Cache of a run that has already resolved address 0 to a no-op handler. -/
def cacheNop : Nat → Option HTag := fun a => if a = 0 then some HTag.nop else none

/-- C1 witness: the amended theorem applied at a concrete cache-hit state. -/
theorem c1_witness :
    (cacheNop 0 = some HTag.nop) ∧
    ((stepIter (os0 0) ⟨m0, cacheNop, initFrame⟩).cache 0 = some HTag.nop) ∧
    (stepIter (os0 0) ⟨m0, cacheNop, initFrame⟩ =
      stepResolvedAs (os0 0) HTag.nop ⟨m0, cacheNop, initFrame⟩) := by
  refine ⟨rfl, ?_, ?_⟩
  · exact c1_amended.1 (os0 0) ⟨m0, cacheNop, initFrame⟩ 0 HTag.nop rfl
  · exact c1_amended.2 (os0 0) ⟨m0, cacheNop, initFrame⟩ HTag.nop rfl

/-- Machine about to execute `JAL 0` (word 0x0C000000) at PC 0 with the
canonical 32-slot register bank. -/
def mJAL : Machine := { m0 with rom_data := [0x0C, 0x00, 0x00, 0x00] }

/-- C3: the JAL handler rebuilds the register bank as
`regs[:31] + [pc + 8] + regs[31:]`, which *inserts* at index 31: one JAL step
turns the 32-slot bank into a 33-slot bank (r31 = PC + 8, and the old r31
shifted to index 32) — the code violates the fixed-32-slot bank invariant the
specification states. -/
theorem c3_register_bank_growth :
    mJAL.cpu_registers.length = 32 ∧
    (runN os0 1 ⟨mJAL, fun _ => none, initFrame⟩).machine.cpu_registers.length = 33 ∧
    (runN os0 1 ⟨mJAL, fun _ => none, initFrame⟩).machine.cpu_registers[31]? = some 8 ∧
    (runN os0 1 ⟨mJAL, fun _ => none, initFrame⟩).machine.cpu_registers[32]? = some 0 := by
  exact ⟨by decide, by decide, by decide, by decide⟩

/-- The 68-byte image of the claimed C6 scenario: canonical header, zeros. -/
def img68 : List Nat := [0x80, 0x37, 0x12, 0x40] ++ List.replicate 64 0

/-- Machine holding `img68` with PC at the claimed entry point 0x1000. -/
def mC6a : Machine := { m0 with rom_data := img68, pc := 0x1000 }

/-- C6 counterexample: on a 68-byte image the loop guard `pc <
len(rom_data)` is false at PC = 0x1000 (and no word exists at offset 0x1000),
so stepping once leaves PC at 0x1000, not 0x1004 as claimed. -/
theorem c6_counterexample :
    img68.length = 68 ∧
    (runN os0 1 ⟨mC6a, fun _ => none, initFrame⟩).machine.pc = 0x1000 ∧
    (runN os0 1 ⟨mC6a, fun _ => none, initFrame⟩).machine.pc ≠ 0x1004 := by
  exact ⟨by decide, by decide, by decide⟩

/-- The amended C6 image: canonical header, zeros, and the word 0x00000820 at
offset 0x1000; total length 0x1004 bytes. -/
def img4100 : List Nat :=
  [0x80, 0x37, 0x12, 0x40] ++ List.replicate 4092 0 ++ [0x00, 0x00, 0x08, 0x20]

/-- Machine holding `img4100` at PC 0x1000 with all registers zero and a
well-shaped pixel buffer. -/
def mC6b : Machine :=
  { m0 with rom_data := img4100, pc := 0x1000,
            rcp := { rcp0 with framebuffer := fbFull } }

lemma img4100_length : img4100.length = 0x1004 := by
  unfold img4100
  rw [List.length_append, List.length_append, List.length_replicate]
  rfl

lemma img4100_tail (k : Nat) : img4100[4096 + k]? = [0x00, 0x00, 0x08, 0x20][k]? := by
  unfold img4100
  rw [List.getElem?_append_right (by
    simp only [List.length_append, List.length_replicate, List.length_cons, List.length_nil]
    omega)]
  simp only [List.length_append, List.length_replicate, List.length_cons, List.length_nil]
  rw [show 4096 + k - (4 + 4092) = k by omega]

lemma img4100_fetch : fetchWord img4100 0x1000 = some 0x00000820 := by
  have g0 : img4100.getD 0x1000 0 = 0x00 := by
    rw [List.getD_eq_getElem?_getD, show (0x1000 : Nat) = 4096 + 0 by norm_num, img4100_tail]
    rfl
  have g1 : img4100.getD (0x1000 + 1) 0 = 0x00 := by
    rw [List.getD_eq_getElem?_getD, show (0x1000 + 1 : Nat) = 4096 + 1 by norm_num, img4100_tail]
    rfl
  have g2 : img4100.getD (0x1000 + 2) 0 = 0x08 := by
    rw [List.getD_eq_getElem?_getD, show (0x1000 + 2 : Nat) = 4096 + 2 by norm_num, img4100_tail]
    rfl
  have g3 : img4100.getD (0x1000 + 3) 0 = 0x20 := by
    rw [List.getD_eq_getElem?_getD, show (0x1000 + 3 : Nat) = 4096 + 3 by norm_num, img4100_tail]
    rfl
  unfold fetchWord
  rw [if_neg (by rw [img4100_length]; omega)]
  unfold word32At
  rw [g0, g1, g2, g3]
  rfl

/-- C6 (amended): on an image of length 0x1004 with the canonical header and
word 0x00000820 at offset 0x1000 — which decodes to opcode 0 (`ADD`) with
rs = 0, rt = 0, rd = 1 — one loop iteration from PC = 0x1000 with all-zero
registers leaves register 1 = 0 and PC = 0x1004. -/
theorem c6_amended :
    img4100.length = 0x1004 ∧
    img4100.take 4 = [0x80, 0x37, 0x12, 0x40] ∧
    fetchWord img4100 0x1000 = some 0x00000820 ∧
    decodeBind 0x00000820 initFrame = (HTag.add, ⟨0, 0, 1, 0, 0⟩) ∧
    (runN os0 1 ⟨mC6b, fun _ => none, initFrame⟩).machine.cpu_registers[1]? = some 0 ∧
    (runN os0 1 ⟨mC6b, fun _ => none, initFrame⟩).machine.pc = 0x1004 := by
  have hguard : loopGuard mC6b = true := by
    unfold loopGuard
    rw [show mC6b.is_running = true from rfl]
    rw [show mC6b.rom_data = img4100 from rfl, show mC6b.pc = 0x1000 from rfl, img4100_length]
    norm_num
  have hstep : runN os0 1 ⟨mC6b, fun _ => none, initFrame⟩ =
      stepIter (os0 0) ⟨mC6b, fun _ => none, initFrame⟩ := by
    simp only [runN, hguard, if_true]
  have hf : fetchWord mC6b.rom_data mC6b.pc = some 0x00000820 := img4100_fetch
  refine ⟨img4100_length, rfl, img4100_fetch, by decide, ?_, ?_⟩
  · rw [hstep]
    simp only [stepIter, tryBody, hf]
    decide
  · rw [hstep]
    simp only [stepIter, tryBody, hf]
    decide

/-- Machine whose fetch succeeds (word 0) but whose register bank is empty, so
the decoded ADD handler raises `IndexError` when it reads its operands. -/
def mErr : Machine := { m0 with rom_data := [0, 0, 0, 0], cpu_registers := [] }

/-- C5 witness: the error-skip theorem applied at a fetch-out-of-bounds state
(empty image) and at a handler-raise state (empty register bank). -/
theorem c5_witness :
    (m0.pc + 4 > m0.rom_data.length) ∧
    (stepIter (os0 0) ⟨m0, fun _ => none, initFrame⟩ =
      ⟨{ m0 with frame_count := m0.frame_count + 1, pc := m0.pc + 4 },
        fun _ => none, initFrame⟩) ∧
    (fetchWord mErr.rom_data mErr.pc = some 0) ∧
    ((applyHandler (resolved ⟨mErr, fun _ => none, initFrame⟩ 0).1
        (resolved ⟨mErr, fun _ => none, initFrame⟩ 0).2
        { mErr with frame_count := mErr.frame_count + 1 }).2 = some PyErr.indexError) ∧
    ((stepIter (os0 0) ⟨mErr, fun _ => none, initFrame⟩).machine =
      { mErr with frame_count := mErr.frame_count + 1, pc := mErr.pc + 4 }) := by
  refine ⟨by decide, c5_error_skip.1 (os0 0) ⟨m0, fun _ => none, initFrame⟩ (by decide),
    by decide, by decide, ?_⟩
  exact c5_error_skip.2 (os0 0) ⟨mErr, fun _ => none, initFrame⟩ 0 PyErr.indexError
    (by decide) (by decide)

/-- Machine with an `ADD` instruction at PC 0, for the restart witness. -/
def mC10 : Machine := { m0 with rom_data := [0x00, 0x22, 0x08, 0x00] }

/-- C10 witness: the fresh-cache theorem applied at a concrete machine. -/
theorem c10_witness :
    (mC10.core_installed = true) ∧ (mC10.rom_path.isSome = true) ∧
    (fetchWord mC10.rom_data mC10.pc = some 0x00220800) ∧
    (mC10.pc < mC10.rom_data.length) ∧
    (start_emulation os0 1 (pause_emulation mC10) =
      runN os0 1 ⟨{ pause_emulation mC10 with is_running := true },
        fun _ => none, initFrame⟩) ∧
    ((start_emulation os0 1 (pause_emulation mC10)).cache mC10.pc =
      some (decodeBind 0x00220800 initFrame).1) :=
  ⟨rfl, rfl, by decide, by decide,
    (c10_fresh_cache_per_run os0 1 mC10 rfl rfl).1,
    (c10_fresh_cache_per_run os0 1 mC10 rfl rfl).2 0x00220800 (by decide) (by decide)⟩

/-- Machine with a loaded ROM for the snapshot scenarios. -/
def mC4 : Machine := { m0 with rom_data := [1, 2, 3, 4] }

/-- `mC4` after saving to slot 3. -/
def mC4saved : Machine := (save_state mC4 (some 3)).1

/-- `mC4saved` with the coprocessor vector registers mutated (vu[0] := 5). -/
def mC4mut : Machine :=
  { mC4saved with rcp := { mC4saved.rcp with vu_registers := 5 :: List.replicate 31 0 } }

/-- C4 counterexample: capture the machine into slot 3, mutate the
coprocessor's vector registers, restore slot 3: the restore succeeds yet
vu[0] keeps the mutated value 5 instead of the capture-time value 0 — the
snapshot does not contain the vector registers. -/
theorem c4_counterexample :
    mC4.rcp.vu_registers[0]? = some 0 ∧
    (load_state mC4mut (some 3)).2 = LoadSig.loaded ∧
    (load_state mC4mut (some 3)).1.rcp.vu_registers[0]? = some 5 ∧
    some (5 : Nat) ≠ some 0 := by
  exact ⟨by decide, by decide, by decide, by decide⟩

/-- Mutation of the coprocessor's vector-register bank of a machine. -/
def mutVu (m : Machine) (vu2 : List Nat) : Machine :=
  { m with rcp := { m.rcp with vu_registers := vu2 } }

/-- C4 (amended): a restore after capture-then-mutation brings the seven
captured components (frame counter, PC, general registers, title, pixel
buffer, main memory, coprocessor scratch memory) back to their capture-time
values, but the coprocessor's vector registers are not part of the snapshot
and keep their mutated values. -/
theorem c4_amended (m : Machine) (s : Nat) (vu2 : List Nat)
    (hrom : m.rom_path.isSome = true) (hs : s ≠ 0) :
    (save_state m (some s)).2 = SaveSig.saved ∧
    (load_state (mutVu (save_state m (some s)).1 vu2) (some s)).2 = LoadSig.loaded ∧
    (load_state (mutVu (save_state m (some s)).1 vu2) (some s)).1.frame_count = m.frame_count ∧
    (load_state (mutVu (save_state m (some s)).1 vu2) (some s)).1.pc = m.pc ∧
    (load_state (mutVu (save_state m (some s)).1 vu2) (some s)).1.cpu_registers =
      m.cpu_registers ∧
    (load_state (mutVu (save_state m (some s)).1 vu2) (some s)).1.rom_title = m.rom_title ∧
    (load_state (mutVu (save_state m (some s)).1 vu2) (some s)).1.rcp.framebuffer =
      m.rcp.framebuffer ∧
    (load_state (mutVu (save_state m (some s)).1 vu2) (some s)).1.rdram = m.rdram ∧
    (load_state (mutVu (save_state m (some s)).1 vu2) (some s)).1.rcp.rsp_memory =
      m.rcp.rsp_memory ∧
    (load_state (mutVu (save_state m (some s)).1 vu2) (some s)).1.rcp.vu_registers = vu2 := by
  obtain ⟨p, hp⟩ := Option.isSome_iff_exists.1 hrom
  have hnone : m.rom_path.isNone = false := by rw [hp]; rfl
  have hsave : save_state m (some s) =
      ({ m with save_states := fun k => if k = s then some (snapOf m) else m.save_states k },
        SaveSig.saved) := by
    unfold save_state
    rw [hnone]
    simp [hs]
  rw [hsave]
  simp [load_state, mutVu, snapOf, hnone]

/-- C7: restoring a slot in [1,10] that was never written signals
slot-not-found and returns the machine completely unchanged. -/
theorem c7_slot_not_found (m : Machine) (s : Nat) (hrom : m.rom_path.isSome = true)
    (h1 : 1 ≤ s) (h10 : s ≤ 10) (hempty : m.save_states s = none) :
    load_state m (some s) = (m, LoadSig.slotNotFound) := by
  obtain ⟨p, hp⟩ := Option.isSome_iff_exists.1 hrom
  have hnone : m.rom_path.isNone = false := by rw [hp]; rfl
  unfold load_state
  rw [hnone]
  simp [hempty]

/-- C7 witness: the slot-not-found theorem applied at a concrete machine with
no snapshot in slot 3. -/
theorem c7_witness :
    (m0.rom_path.isSome = true) ∧ (1 ≤ 3) ∧ (3 ≤ 10) ∧ (m0.save_states 3 = none) ∧
    load_state m0 (some 3) = (m0, LoadSig.slotNotFound) :=
  ⟨rfl, by decide, by decide, rfl, c7_slot_not_found m0 3 rfl (by decide) (by decide) rfl⟩

lemma pick_ok (b : List Nat) : ∀ idxs : List Nat, (∀ i ∈ idxs, i < b.length) →
    ∃ l, pick b idxs = .ok l ∧ l.length = idxs.length := by
  intro idxs
  induction idxs with
  | nil => exact fun _ => ⟨[], rfl, rfl⟩
  | cons i rest ih =>
    intro h
    have hi : i < b.length := h i (List.mem_cons_self i rest)
    obtain ⟨l, hl, hlen⟩ := ih fun j hj => h j (List.mem_cons_of_mem i hj)
    refine ⟨b[i] :: l, ?_, by simp [hlen]⟩
    simp only [pick, List.getElem?_eq_getElem hi, hl]

lemma pick_err (b : List Nat) : ∀ idxs : List Nat, (∃ i ∈ idxs, b.length ≤ i) →
    ∃ e, pick b idxs = .error e := by
  intro idxs
  induction idxs with
  | nil => rintro ⟨i, hi, _⟩
           exact absurd hi (List.not_mem_nil i)
  | cons i rest ih =>
    rintro ⟨j, hj, hjb⟩
    rcases hg : b[i]? with _ | v
    · exact ⟨.indexError, by simp [pick, hg]⟩
    · have hib : i < b.length := getElem?_some_lt hg
      have hjr : j ∈ rest := by
        rcases List.mem_cons.1 hj with hji | hjr
        · subst hji
          exact absurd hjb (by omega)
        · exact hjr
      obtain ⟨e, he⟩ := ih ⟨j, hjr, hjb⟩
      exact ⟨e, by simp [pick, hg, he]⟩

/-- C9: an odd-length byte-swapped (`37 80 40 12`) input of length at least 64
fails to load — the interleave reads one byte past the end — while an
even-length one normalises to an image of exactly the input's length. -/
theorem c9_byteswap_parity (b : List Nat) (h64 : 64 ≤ b.length)
    (hmagic : b.take 4 = [0x37, 0x80, 0x40, 0x12]) :
    (Odd b.length → ∃ e, load_rom_normalize b = .error e) ∧
    (Even b.length → ∃ out, load_rom_normalize b = .ok out ∧ out.length = b.length) := by
  have hsmall : ¬ b.length < 64 := by omega
  have hne1 : ¬ b.take 4 = [0x80, 0x37, 0x12, 0x40] := by
    rw [hmagic]
    decide
  constructor
  · intro hodd
    obtain ⟨mm, hm⟩ := hodd
    have hhalf : (b.length + 1) / 2 = mm + 1 := by omega
    obtain ⟨e, he⟩ := pick_err b ((List.range ((b.length + 1) / 2)).map fun k => 2 * k + 1)
      ⟨2 * mm + 1, List.mem_map.2 ⟨mm, by rw [hhalf]; exact List.mem_range.2 (by omega), rfl⟩,
        by omega⟩
    refine ⟨e, ?_⟩
    unfold load_rom_normalize
    rw [if_neg hsmall, if_neg hne1, if_pos hmagic, he]
  · intro heven
    obtain ⟨mm, hm⟩ := heven
    have hhalf : (b.length + 1) / 2 = mm := by omega
    obtain ⟨odds, ho, holen⟩ := pick_ok b
      ((List.range ((b.length + 1) / 2)).map fun k => 2 * k + 1) (by
        intro i hi
        obtain ⟨k, hk, rfl⟩ := List.mem_map.1 hi
        rw [hhalf] at hk
        have := List.mem_range.1 hk
        omega)
    obtain ⟨evens, hev, helen⟩ := pick_ok b
      ((List.range ((b.length + 1) / 2)).map fun k => 2 * k) (by
        intro i hi
        obtain ⟨k, hk, rfl⟩ := List.mem_map.1 hi
        rw [hhalf] at hk
        have := List.mem_range.1 hk
        omega)
    refine ⟨odds ++ evens, ?_, ?_⟩
    · unfold load_rom_normalize
      rw [if_neg hsmall, if_neg hne1, if_pos hmagic, ho, hev]
    · rw [List.length_append, holen, helen]
      simp only [List.length_map, List.length_range, hhalf]
      omega

/-- Odd-length byte-swapped input (65 bytes). -/
def bsOdd : List Nat := [0x37, 0x80, 0x40, 0x12] ++ List.replicate 61 0

/-- Even-length byte-swapped input (66 bytes). -/
def bsEven : List Nat := [0x37, 0x80, 0x40, 0x12] ++ List.replicate 62 0

/-- C9 witness: the parity theorem applied at concrete 65- and 66-byte inputs. -/
theorem c9_witness :
    (64 ≤ bsOdd.length) ∧ Odd bsOdd.length ∧
    (bsOdd.take 4 = [0x37, 0x80, 0x40, 0x12]) ∧
    (∃ e, load_rom_normalize bsOdd = .error e) ∧
    (64 ≤ bsEven.length) ∧ Even bsEven.length ∧
    (bsEven.take 4 = [0x37, 0x80, 0x40, 0x12]) ∧
    (∃ out, load_rom_normalize bsEven = .ok out ∧ out.length = bsEven.length) := by
  have hodd : Odd bsOdd.length := by
    rw [show bsOdd.length = 65 from by decide]
    exact ⟨32, by norm_num⟩
  have heven : Even bsEven.length := by
    rw [show bsEven.length = 66 from by decide]
    exact ⟨33, by norm_num⟩
  exact ⟨by decide, hodd, by decide,
    (c9_byteswap_parity bsOdd (by decide) (by decide)).1 hodd,
    by decide, heven, by decide,
    (c9_byteswap_parity bsEven (by decide) (by decide)).2 heven⟩

/-- A coprocessor with a correctly shaped all-zero pixel buffer. -/
def rcp8 : Rcp := { rcp0 with framebuffer := List.replicate 240 (List.replicate 320 0) }

/-- C8 witness: the uniform-recolor theorem applied at a concrete VADD
instruction on a well-shaped coprocessor state. -/
theorem c8_witness :
    ((0 : Nat) + 4 ≤ ([0xC8, 0x22, 0x08, 0x00] : List Nat).length) ∧
    (rcp8.vu_registers.length = 32) ∧
    (rcp8.framebuffer.length = 240) ∧
    (∀ row ∈ rcp8.framebuffer, row.length = 320) ∧
    (∃ v0 v1 v2,
      (rsp_execute [0xC8, 0x22, 0x08, 0x00] 0 rcp8).1.vu_registers[0]? = some v0 ∧
      (rsp_execute [0xC8, 0x22, 0x08, 0x00] 0 rcp8).1.vu_registers[1]? = some v1 ∧
      (rsp_execute [0xC8, 0x22, 0x08, 0x00] 0 rcp8).1.vu_registers[2]? = some v2 ∧
      ∀ j i, j < 240 → i < 320 →
        ((rsp_execute [0xC8, 0x22, 0x08, 0x00] 0 rcp8).1.framebuffer[j]?).bind
            (fun row : List Nat => row[i]?) =
          some (((v0 % 256) <<< 16) ||| ((v1 % 256) <<< 8) ||| (v2 % 256))) := by
  refine ⟨by decide, by decide, by decide, ?_, ?_⟩
  · intro row hrow
    rw [rcp8] at hrow
    simp only at hrow
    rw [List.eq_of_mem_replicate hrow]
    decide
  · exact rsp_execute_uniform_recolor [0xC8, 0x22, 0x08, 0x00] 0 rcp8
      (by decide) (by decide) (by decide) (by
        intro row hrow
        rw [rcp8] at hrow
        simp only at hrow
        rw [List.eq_of_mem_replicate hrow]
        decide)

/-- C4 witness: the amended snapshot theorem applied at a concrete machine,
slot 3 and a concrete mutated vector-register bank. -/
theorem c4_witness :
    (mC4.rom_path.isSome = true) ∧ ((3 : Nat) ≠ 0) ∧
    ((save_state mC4 (some 3)).2 = SaveSig.saved) ∧
    ((load_state (mutVu (save_state mC4 (some 3)).1 (5 :: List.replicate 31 0))
        (some 3)).1.rcp.vu_registers = 5 :: List.replicate 31 0) :=
  ⟨rfl, by decide, (c4_amended mC4 3 (5 :: List.replicate 31 0) rfl (by decide)).1,
    (c4_amended mC4 3 (5 :: List.replicate 31 0) rfl
      (by decide)).2.2.2.2.2.2.2.2.2⟩
